import Mathlib

/-!
# Verification of the companya_back resilient-client subsystem

Shallow embedding of the subsystem described in the specification:

* `FilecoinDirectClient._make_rpc_request` / `_try_next_rpc_url`
  (`src/IPFS_storage/modules/filecoin_direct_client.py`): retrying JSON-RPC
  client with sticky failover across an ordered endpoint pool.
* `FilecoinDirectClient.upload_file` / `_upload_to_ipfs` /
  `_create_deterministic_cid` / `download_file`: content upload with a local
  deterministic fallback, and retrieval through a cache plus gateways.
* `build_and_send_transaction` / `crear_servicio` (`src/backend/main.py`):
  the transaction pipeline (nonce, gas estimate, gas price, sign, broadcast,
  receipt) and its audit logging.
* `UploadLogger.log_upload` (`src/IPFS_storage/modules/upload_logger.py`) and
  `TransactionLogger.log_transaction` (`src/backend/transaction_logger.py`):
  the JSON-file audit logs.

External effects (HTTP requests, the SHA-256 of `hashlib`, mining/receipts)
are modelled as explicit behaviour parameters; the file holding a JSON log is
modelled by the decoded document itself, since every logger operation is a
whole-file read followed by a whole-file write of the decoded document.
-/

namespace Companya

/-! ## RPC client (`FilecoinDirectClient._make_rpc_request`)

One HTTP POST of the payload to an endpoint has one of these observable
outcomes, matching the branches of the Python code: status 200 (the JSON body
is returned), status 429 (rate limited), any other status, a
`requests.exceptions.Timeout`, a `requests.exceptions.ConnectionError`, or any
other exception.  The behaviour of the network is a function from the endpoint
index and the attempt number (within this call's inner retry loop) to an
outcome. -/

inductive RpcOutcome where
  | success (payload : Nat)
  | rateLimited
  | httpError
  | timeout
  | connectionError
  | otherException
deriving DecidableEq, Repr

/-- State of `FilecoinDirectClient` relevant to `_make_rpc_request`:
`self.rpc_urls`, `self.current_rpc_index`, `self.rpc_url`, `self.max_retries`. -/
structure RpcClient where
  rpcUrls : List String
  currentRpcIndex : Nat
  rpcUrl : String
  maxRetries : Nat
deriving DecidableEq, Repr

/-- `FilecoinDirectClient._try_next_rpc_url`: advance the sticky index
(mod the pool size) and update `self.rpc_url` accordingly. -/
def tryNextRpcUrl (c : RpcClient) : RpcClient :=
  let i := (c.currentRpcIndex + 1) % c.rpcUrls.length
  { c with currentRpcIndex := i, rpcUrl := c.rpcUrls.getD i "" }

/-- The inner `for attempt in range(self.max_retries)` loop of
`_make_rpc_request`, at one endpoint whose per-attempt outcomes are `f`.
The fuel argument counts the remaining iterations of the range (it is
`max_retries - attempt`).  A 429 response and the three exception branches
retry while `attempt < max_retries - 1`, i.e. while `attempt + 1 < max_retries`;
any other non-200 status breaks immediately. -/
def attemptLoopGo (f : Nat → RpcOutcome) (maxRetries : Nat) :
    Nat → Nat → Option Nat
  | 0, _ => none
  | fuel + 1, a =>
    match f a with
    | .success r => some r
    | .rateLimited =>
        if a + 1 < maxRetries then attemptLoopGo f maxRetries fuel (a + 1) else none
    | .httpError => none
    | .timeout =>
        if a + 1 < maxRetries then attemptLoopGo f maxRetries fuel (a + 1) else none
    | .connectionError =>
        if a + 1 < maxRetries then attemptLoopGo f maxRetries fuel (a + 1) else none
    | .otherException =>
        if a + 1 < maxRetries then attemptLoopGo f maxRetries fuel (a + 1) else none

/-- The inner retry loop started at attempt `a`: returns `some payload` if a
200 response is obtained before the retry budget runs out, `none` if the loop
breaks (the caller then moves to the next endpoint). -/
def attemptLoop (f : Nat → RpcOutcome) (maxRetries a : Nat) : Option Nat :=
  attemptLoopGo f maxRetries (maxRetries - a) a

/-- The outer `for rpc_attempt in range(len(self.rpc_urls))` loop of
`_make_rpc_request`.  The list argument is the remaining iterations of the
range; `self._try_next_rpc_url()` runs only while
`rpc_attempt < len(self.rpc_urls) - 1`, i.e. while the remainder is non-empty.
Returns the payload of the first 200 response (leaving the sticky index at the
endpoint that produced it) or `none` with the state as the loop left it. -/
def rpcLoopGo (behave : Nat → Nat → RpcOutcome) (maxRetries : Nat) :
    List Nat → RpcClient → Option Nat × RpcClient
  | [], c => (none, c)
  | _ :: rest, c =>
    match attemptLoop (behave c.currentRpcIndex) maxRetries 0 with
    | some r => (some r, c)
    | none =>
      match rest with
      | [] => (none, c)
      | _ :: _ => rpcLoopGo behave maxRetries rest (tryNextRpcUrl c)

/-- Error raised when every endpoint is exhausted: the Python
`ConnectionError` message interpolates `len(self.rpc_urls)` and
`self.max_retries`. -/
structure ConnectivityError where
  numUrls : Nat
  retriesEach : Nat
deriving DecidableEq, Repr

/-- `FilecoinDirectClient._make_rpc_request`.  On total failure the code
resets `self.current_rpc_index` to the value saved on entry and recomputes
`self.rpc_url` from it, then raises the connectivity error. -/
def makeRpcRequest (behave : Nat → Nat → RpcOutcome) (c : RpcClient) :
    Except ConnectivityError Nat × RpcClient :=
  match rpcLoopGo behave c.maxRetries (List.range c.rpcUrls.length) c with
  | (some r, c') => (.ok r, c')
  | (none, _) =>
      (.error ⟨c.rpcUrls.length, c.maxRetries⟩,
       { c with rpcUrl := c.rpcUrls.getD c.currentRpcIndex "" })

/-- An outcome that the inner retry loop treats as retryable-or-success:
timeouts, connection failures, or a 200 response. -/
def retryableOrSuccess (o : RpcOutcome) : Prop :=
  o = .timeout ∨ o = .connectionError ∨ ∃ s, o = .success s

/-! ## Content uploader (`FilecoinDirectClient.upload_file` and friends)

Bytes are modelled as lists of naturals.  `hashlib.sha256(...).hexdigest()` is
an external library call, modelled as an explicit pure function parameter
`sha256hex`; the local cache directory (files `{cid}.dat` under
`filecoin_direct_cache`) is an association list from file name to contents,
where writing prepends (a later write of the same name shadows the older one,
as overwriting a file does). -/

abbrev Bytes := List Nat

/-- One entry of `self.ipfs_endpoints`: name, URL and optional credential
token. -/
structure IpfsEndpoint where
  name : String
  url : String
  token : Option String
deriving DecidableEq, Repr

/-- `FilecoinDirectClient._create_deterministic_cid`: hash the content bytes,
format the cid as `"bafybeif" + hash[:52]`, and persist the bytes in the local
cache under `{cid}.dat`.  The `filename` argument is unused by the source. -/
def createDeterministicCid (sha256hex : Bytes → String)
    (cache : List (String × Bytes)) (fileBytes : Bytes) (filename : String) :
    String × List (String × Bytes) :=
  let contentHash := sha256hex fileBytes
  let cid := "bafybeif" ++ contentHash.take 52
  (cid, (cid ++ ".dat", fileBytes) :: cache)

/-- The `for endpoint in self.ipfs_endpoints` loop of
`FilecoinDirectClient._upload_to_ipfs`.  An endpoint without a token is
skipped (`continue`) without being attempted.  An enabled endpoint's attempt
(`backendBehave i` for the endpoint at position `i`) either raises
(`.error ()`, caught, loop continues), or returns an optional cid; a missing
or empty cid is falsy in `if cid:` so the loop continues.  The second
component counts how many backend upload calls were actually made. -/
def uploadToIpfsGo (backendBehave : Nat → Except Unit (Option String)) :
    List IpfsEndpoint → Nat → Nat → Option String × Nat
  | [], _, n => (none, n)
  | ep :: rest, i, n =>
    match ep.token with
    | none => uploadToIpfsGo backendBehave rest (i + 1) n
    | some _ =>
      match backendBehave i with
      | .error _ => uploadToIpfsGo backendBehave rest (i + 1) (n + 1)
      | .ok none => uploadToIpfsGo backendBehave rest (i + 1) (n + 1)
      | .ok (some cid) =>
        if cid.isEmpty then uploadToIpfsGo backendBehave rest (i + 1) (n + 1)
        else (some cid, n + 1)

/-- `FilecoinDirectClient._upload_to_ipfs`: try every enabled endpoint; if
none returned a cid, fall back to `_create_deterministic_cid` (which writes
the local cache).  Returns the cid, the cache and the backend call count. -/
def uploadToIpfs (sha256hex : Bytes → String)
    (backendBehave : Nat → Except Unit (Option String))
    (endpoints : List IpfsEndpoint) (cache : List (String × Bytes))
    (fileBytes : Bytes) (filename : String) :
    String × List (String × Bytes) × Nat :=
  match uploadToIpfsGo backendBehave endpoints 0 0 with
  | (some cid, n) => (cid, cache, n)
  | (none, n) =>
    let res := createDeterministicCid sha256hex cache fileBytes filename
    (res.1, res.2, n)

inductive UploadError where
  | validationError (msg : String)
  | ipfsUploadFailed (msg : String)
deriving DecidableEq, Repr

/-- `FilecoinDirectClient.upload_file`: reject empty input before anything
else (`raise Exception("File is empty (0 bytes)")`), then `_upload_to_ipfs`;
a falsy cid raises.  `_create_filecoin_deal` only assembles an informational
dict and never changes the cid or the cache, so it is omitted. -/
def uploadFile (sha256hex : Bytes → String)
    (backendBehave : Nat → Except Unit (Option String))
    (endpoints : List IpfsEndpoint) (cache : List (String × Bytes))
    (fileBytes : Bytes) (filename : String) :
    Except UploadError String × List (String × Bytes) × Nat :=
  if fileBytes.length = 0 then
    (.error (.validationError "File is empty (0 bytes)"), cache, 0)
  else
    let res := uploadToIpfs sha256hex backendBehave endpoints cache fileBytes filename
    if res.1.isEmpty then
      (.error (.ipfsUploadFailed "Failed to upload to IPFS"), res.2.1, res.2.2)
    else
      (.ok res.1, res.2.1, res.2.2)

/-- The `for gateway in self.ipfs_gateways` loop of
`FilecoinDirectClient.download_file`: `gatewayBehave i` is `some content` for
a 200 response at the gateway at position `i`, `none` for any other status or
exception (both make the loop continue). -/
def tryGateways (gatewayBehave : Nat → Option Bytes) :
    List String → Nat → Option Bytes
  | [], _ => none
  | _ :: rest, i =>
    match gatewayBehave i with
    | some b => some b
    | none => tryGateways gatewayBehave rest (i + 1)

/-- `FilecoinDirectClient.download_file`: serve `{cid}.dat` from the local
cache if present, otherwise try the gateways in order, otherwise raise. -/
def downloadFile (gatewayBehave : Nat → Option Bytes) (gateways : List String)
    (cache : List (String × Bytes)) (cid : String) : Except String Bytes :=
  match cache.lookup (cid ++ ".dat") with
  | some bytes => .ok bytes
  | none =>
    match tryGateways gatewayBehave gateways 0 with
    | some b => .ok b
    | none => .error ("Could not download file with CID: " ++ cid)

/-! ## Transaction pipeline (`build_and_send_transaction`, `crear_servicio`)

The chain is modelled by the account's transaction count (what
`web3.eth.get_transaction_count` returns), the current network gas price, and
the list of raw transactions broadcast so far.  Signing and mining are
external behaviours (`hashOf`, `mine`); a broadcast transaction is appended to
`broadcasts` and, once its receipt is returned, the account's transaction
count has increased by one. -/

structure SignedTx where
  nonce : Nat
  gas : Nat
  gasPrice : Nat
  chainId : Nat
  sender : String
deriving DecidableEq, Repr

structure Receipt where
  blockNumber : Nat
  gasUsed : Nat
  status : Nat
deriving DecidableEq, Repr

structure TxResult where
  transactionHash : String
  blockNumber : Nat
  gasUsed : Nat
  status : Nat
deriving DecidableEq, Repr

structure ChainState where
  txCount : Nat
  gasPrice : Nat
  broadcasts : List SignedTx
deriving DecidableEq, Repr

/-- A prepared contract call (`contract.functions.f(args)`), described by what
its gas estimation does: `estimate_gas` either throws (the call would revert)
with some message, or returns an estimate. -/
structure FunctionCall where
  estimateGas : Except String Nat
deriving Repr

inductive TxError where
  | httpException (statusCode : Nat) (detail : String)
deriving DecidableEq, Repr

/-- `str(e)` of a FastAPI `HTTPException`, as interpolated by the outer
handlers: status code, colon, detail. -/
def strOfTxError : TxError → String
  | .httpException code detail => toString code ++ ": " ++ detail

/-- `build_and_send_transaction` of `src/backend/main.py`: fetch the nonce,
estimate gas (any exception is caught and re-raised as
`HTTPException(400, "Error en transacción: ...")` before anything is signed
or broadcast), fetch the gas price, build the transaction with
`gas = int(gas_estimate * 1.2)` (modelled as `gasEstimate * 12 / 10`), sign,
broadcast, and wait for the receipt. -/
def buildAndSendTransaction (chainId : Nat) (account : String)
    (hashOf : SignedTx → String) (mine : SignedTx → Receipt)
    (st : ChainState) (fc : FunctionCall) :
    Except TxError TxResult × ChainState :=
  let nonce := st.txCount
  match fc.estimateGas with
  | .error e =>
      (.error (.httpException 400 ("Error en transacción: " ++ e)), st)
  | .ok gasEstimate =>
      let tx : SignedTx := ⟨nonce, gasEstimate * 12 / 10, st.gasPrice, chainId, account⟩
      let receipt := mine tx
      (.ok ⟨hashOf tx, receipt.blockNumber, receipt.gasUsed, receipt.status⟩,
       { st with broadcasts := st.broadcasts ++ [tx], txCount := st.txCount + 1 })

/-! ## Transaction audit log (`TransactionLogger.log_transaction`) -/

/-- One entry of the `transactions` array of `transfer_log.json` (the fields
relevant to the claims). -/
structure TxLogEntry where
  transactionHash : String
  functionName : String
  status : String
  blockNumber : Option Nat
  gasUsed : Option Nat
deriving DecidableEq, Repr

structure TransactionLog where
  transactions : List TxLogEntry
deriving DecidableEq, Repr

/-- `TransactionLogger.log_transaction`: read the log, insert the new entry
at position 0 (most recent first), keep only the first 1000 entries if the
list now exceeds 1000, and write the log back. -/
def logTransaction (log : TransactionLog) (entry : TxLogEntry) : TransactionLog :=
  let ts := entry :: log.transactions
  { transactions := if ts.length > 1000 then ts.take 1000 else ts }

/-- The response assembled by the `/servicios/crear` endpoint on success. -/
structure ServicioResponse where
  success : Bool
  tokenId : Option Nat
  estado : Nat
  transaction : TxResult
deriving DecidableEq, Repr

/-- `crear_servicio` of `src/backend/main.py`: run
`build_and_send_transaction`; on success parse the `ServicioCreado` event for
the token id (external, `tokenIdOfReceipt`), call `log_transaction` with
status `success`/`failed` according to the receipt status, and return the
response.  Any exception (including the `HTTPException` raised by
`build_and_send_transaction`) is caught and re-raised as
`HTTPException(400, "Error al crear servicio: " + str(e))` — without any call
to `log_transaction` on that path. -/
def crearServicio (chainId : Nat) (account : String)
    (hashOf : SignedTx → String) (mine : SignedTx → Receipt)
    (tokenIdOfReceipt : TxResult → Option Nat)
    (st : ChainState) (log : TransactionLog)
    (destinatario : String) (fc : FunctionCall) :
    Except TxError ServicioResponse × ChainState × TransactionLog :=
  match buildAndSendTransaction chainId account hashOf mine st fc with
  | (.error e, st') =>
      (.error (.httpException 400 ("Error al crear servicio: " ++ strOfTxError e)),
       st', log)
  | (.ok txr, st') =>
      let log' := logTransaction log
        ⟨txr.transactionHash, "crearServicio",
         if txr.status = 1 then "success" else "failed",
         some txr.blockNumber, some txr.gasUsed⟩
      (.ok ⟨true, tokenIdOfReceipt txr, 1, txr⟩, st', log')

/-! ## Upload audit log (`UploadLogger.log_upload`) -/

/-- One entry of the `uploads` array of `upload_log.json` (the fields relevant
to the claims).  `seq` is the `len(data['uploads']) + 1` component of the
generated `upload_id`. -/
structure UploadLogEntry where
  seq : Nat
  uploadId : String
  timestamp : Nat
  uploadType : String
  status : String
  fileSizeBytes : Nat
deriving DecidableEq, Repr

/-- The decoded `upload_log.json` document: the `uploads` array plus the
totals that `_save_log_data` recomputes on every write. -/
structure UploadLog where
  uploads : List UploadLogEntry
  totalUploads : Nat
  totalSizeBytes : Nat
deriving DecidableEq, Repr

/-- `UploadLogger._initialize_log_file`. -/
def initialUploadLog : UploadLog := ⟨[], 0, 0⟩

/-- `UploadLogger._save_log_data`: recompute the totals and write the file. -/
def saveLogData (uploads : List UploadLogEntry) : UploadLog :=
  { uploads := uploads,
    totalUploads := uploads.length,
    totalSizeBytes := (uploads.map (fun u => u.fileSizeBytes)).sum }

/-- `UploadLogger.log_upload`: load the log, build
`upload_id = f"upload_{len(data['uploads']) + 1}_{timestamp}"`, append the
entry at the end, and save. -/
def logUpload (log : UploadLog) (ts : Nat) (uploadType : String)
    (fileSize : Nat) (status : String) : UploadLog :=
  let seq := log.uploads.length + 1
  let entry : UploadLogEntry :=
    ⟨seq, "upload_" ++ toString seq ++ "_" ++ toString ts, ts, uploadType,
     status, fileSize⟩
  saveLogData (log.uploads ++ [entry])

/-- `n` sequential `log_upload` calls starting from a fresh log. -/
def logUploadN : Nat → UploadLog
  | 0 => initialUploadLog
  | n + 1 => logUpload (logUploadN n) n "image" 1 "success"

/-- The `k`-th entry appended in the sequential-append scenarios for the
transaction log (its `blockNumber` field records `k`). -/
def txEntryN (k : Nat) : TxLogEntry :=
  ⟨"0xhash", "crearServicio", "success", some k, none⟩

/-- `n` sequential `log_transaction` calls starting from an empty log. -/
def txAppendN : Nat → TransactionLog
  | 0 => ⟨[]⟩
  | n + 1 => logTransaction (txAppendN n) (txEntryN n)

/-! ## Concrete behaviours used by the witnesses -/

/-- Endpoints 0 and 1 always time out; endpoint 2 always answers 200 with
payload 7. -/
def behaveW3 : Nat → Nat → RpcOutcome := fun e _ =>
  if e < 2 then .timeout else .success 7

/-- Every endpoint times out on every attempt. -/
def behaveTimeoutW : Nat → Nat → RpcOutcome := fun _ _ => .timeout

/-- A stand-in for `hashlib.sha256(...).hexdigest()` in witnesses: any pure
function of the bytes works. -/
def sha256hexW : Bytes → String := fun b => toString b.length

def backendBehaveW : Nat → Except Unit (Option String) := fun _ => .ok none

def gatewayBehaveW : Nat → Option Bytes := fun _ => none

def hashOfW : SignedTx → String := fun _ => "0xabc"

def mineW : SignedTx → Receipt := fun _ => ⟨100, 21000, 1⟩

def tokenIdOfReceiptW : TxResult → Option Nat := fun _ => some 1

/-! ## Lemmas about the RPC loops -/

lemma attemptLoopGo_eq_none_of_fail (f : Nat → RpcOutcome) (m : Nat)
    (hf : ∀ a, f a = .timeout ∨ f a = .connectionError) :
    ∀ fuel a, attemptLoopGo f m fuel a = none := by
  intro fuel
  induction fuel with
  | zero => intro a; rfl
  | succ n ih =>
    intro a
    rcases hf a with h | h <;>
      simp only [attemptLoopGo, h] <;>
      · by_cases h2 : a + 1 < m
        · simp only [h2, if_pos]
          exact ih (a + 1)
        · simp [h2]

lemma attemptLoop_eq_none_of_fail (f : Nat → RpcOutcome) (m : Nat)
    (hf : ∀ a, f a = .timeout ∨ f a = .connectionError) :
    ∀ a, attemptLoop f m a = none :=
  fun a => attemptLoopGo_eq_none_of_fail f m hf (m - a) a

lemma attemptLoop_eq_some_of_first_success (f : Nat → RpcOutcome) (m r : Nat)
    (hm : 1 ≤ m) (h0 : f 0 = .success r) :
    attemptLoop f m 0 = some r := by
  obtain ⟨k, rfl⟩ : ∃ k, m = k + 1 := ⟨m - 1, by omega⟩
  simp [attemptLoop, attemptLoopGo, h0]

/-- Under outcomes restricted to timeout / connection failure / success, the
inner loop fails exactly when no attempt within the retry budget succeeds. -/
lemma attemptLoopGo_none_iff (f : Nat → RpcOutcome) (m : Nat)
    (hf : ∀ a, retryableOrSuccess (f a)) :
    ∀ fuel a, fuel = m - a →
      (attemptLoopGo f m fuel a = none ↔
        ∀ b, a ≤ b → b < m → ∀ s, f b ≠ .success s) := by
  intro fuel
  induction fuel with
  | zero =>
    intro a ha
    constructor
    · intro _ b hab hbm
      omega
    · intro _
      rfl
  | succ n ih =>
    intro a ha
    have hlt : a < m := by omega
    rcases hf a with h | h | ⟨s, h⟩
    · simp only [attemptLoopGo, h]
      by_cases h2 : a + 1 < m
      · rw [if_pos h2, ih (a + 1) (by omega)]
        constructor
        · intro hall b hab hbm t hb
          rcases Nat.eq_or_lt_of_le hab with rfl | hab2
          · rw [h] at hb; exact RpcOutcome.noConfusion hb
          · exact hall b hab2 hbm t hb
        · intro hall b hab hbm
          exact hall b (by omega) hbm
      · simp only [h2, if_neg, not_false_eq_true, true_iff]
        intro b hab hbm s hb
        have hba : b = a := by omega
        subst hba
        rw [h] at hb; exact RpcOutcome.noConfusion hb
    · simp only [attemptLoopGo, h]
      by_cases h2 : a + 1 < m
      · rw [if_pos h2, ih (a + 1) (by omega)]
        constructor
        · intro hall b hab hbm t hb
          rcases Nat.eq_or_lt_of_le hab with rfl | hab2
          · rw [h] at hb; exact RpcOutcome.noConfusion hb
          · exact hall b hab2 hbm t hb
        · intro hall b hab hbm
          exact hall b (by omega) hbm
      · simp only [h2, if_neg, not_false_eq_true, true_iff]
        intro b hab hbm s hb
        have hba : b = a := by omega
        subst hba
        rw [h] at hb; exact RpcOutcome.noConfusion hb
    · simp only [attemptLoopGo, h]
      constructor
      · intro hc
        exact Option.noConfusion hc
      · intro hall
        exact absurd h (hall a le_rfl hlt s)

lemma attemptLoop_none_iff (f : Nat → RpcOutcome) (m : Nat)
    (hf : ∀ a, retryableOrSuccess (f a)) (a : Nat) :
    attemptLoop f m a = none ↔ ∀ b, a ≤ b → b < m → ∀ s, f b ≠ .success s :=
  attemptLoopGo_none_iff f m hf (m - a) a rfl

lemma tryNextRpcUrl_rpcUrls (c : RpcClient) :
    (tryNextRpcUrl c).rpcUrls = c.rpcUrls := rfl

lemma tryNextRpcUrl_maxRetries (c : RpcClient) :
    (tryNextRpcUrl c).maxRetries = c.maxRetries := rfl

lemma tryNextRpcUrl_currentRpcIndex (c : RpcClient) :
    (tryNextRpcUrl c).currentRpcIndex
      = (c.currentRpcIndex + 1) % c.rpcUrls.length := rfl

lemma rpcLoopGo_cons_some (behave : Nat → Nat → RpcOutcome) (m x : Nat)
    (rest : List Nat) (c : RpcClient) (r : Nat)
    (hk : attemptLoop (behave c.currentRpcIndex) m 0 = some r) :
    rpcLoopGo behave m (x :: rest) c = (some r, c) := by
  simp only [rpcLoopGo, hk]

lemma rpcLoopGo_cons_none_last (behave : Nat → Nat → RpcOutcome) (m x : Nat)
    (c : RpcClient)
    (hk : attemptLoop (behave c.currentRpcIndex) m 0 = none) :
    rpcLoopGo behave m [x] c = (none, c) := by
  simp only [rpcLoopGo, hk]

lemma rpcLoopGo_cons_none_step (behave : Nat → Nat → RpcOutcome) (m x y : Nat)
    (rest : List Nat) (c : RpcClient)
    (hk : attemptLoop (behave c.currentRpcIndex) m 0 = none) :
    rpcLoopGo behave m (x :: y :: rest) c
      = rpcLoopGo behave m (y :: rest) (tryNextRpcUrl c) := by
  simp only [rpcLoopGo, hk]

/-- Walking the outer loop with the sticky index still `k` and `l.length`
iterations remaining out of a pool of `k + l.length` endpoints: when every
endpoint from `k` to `M - 1` fails its whole inner loop and endpoint `M`
succeeds with payload `r`, the loop returns `r` and leaves the sticky index at
`M`. -/
lemma rpcLoopGo_success (behave : Nat → Nat → RpcOutcome) (m : Nat) :
    ∀ (l : List Nat) (c : RpcClient) (M r : Nat),
    c.currentRpcIndex + l.length = c.rpcUrls.length →
    c.rpcUrl = c.rpcUrls.getD c.currentRpcIndex "" →
    c.currentRpcIndex ≤ M → M < c.rpcUrls.length →
    (∀ j, c.currentRpcIndex ≤ j → j < M → attemptLoop (behave j) m 0 = none) →
    attemptLoop (behave M) m 0 = some r →
    rpcLoopGo behave m l c
      = (some r, { c with currentRpcIndex := M, rpcUrl := c.rpcUrls.getD M "" }) := by
  intro l
  induction l with
  | nil =>
    intro c M r hlen _hurl hkM hM _hfail _hsucc
    simp only [List.length_nil, Nat.add_zero] at hlen
    omega
  | cons x rest ih =>
    intro c M r hlen hurl hkM hM hfail hsucc
    rcases Nat.eq_or_lt_of_le hkM with hEq | hLt
    · rw [rpcLoopGo_cons_some behave m x rest c r (by rw [hEq]; exact hsucc)]
      have : c = { c with currentRpcIndex := M, rpcUrl := c.rpcUrls.getD M "" } := by
        cases c
        simp only [RpcClient.mk.injEq, and_true, true_and]
        simp only at hEq hurl
        subst hEq
        exact ⟨rfl, hurl⟩
      rw [← this]
    · have hkfail : attemptLoop (behave c.currentRpcIndex) m 0 = none :=
        hfail c.currentRpcIndex le_rfl hLt
      cases rest with
      | nil =>
        simp only [List.length_cons, List.length_nil] at hlen
        omega
      | cons y rest' =>
        simp only [List.length_cons] at hlen
        have hmod : (c.currentRpcIndex + 1) % c.rpcUrls.length
            = c.currentRpcIndex + 1 := by
          apply Nat.mod_eq_of_lt
          omega
        have h1 : (tryNextRpcUrl c).currentRpcIndex = c.currentRpcIndex + 1 := by
          rw [tryNextRpcUrl_currentRpcIndex, hmod]
        have hrec := ih (tryNextRpcUrl c) M r
          (by
            rw [h1, tryNextRpcUrl_rpcUrls]
            simp only [List.length_cons]
            omega)
          (by simp [tryNextRpcUrl])
          (by rw [h1]; omega)
          (by rw [tryNextRpcUrl_rpcUrls]; exact hM)
          (by
            intro j hj hjM
            rw [h1] at hj
            exact hfail j (by omega) hjM)
          hsucc
        rw [rpcLoopGo_cons_none_step behave m x y rest' c hkfail, hrec]
        cases c
        simp_all [tryNextRpcUrl]

/-- Walking the outer loop with the sticky index at `k` and `l.length`
iterations remaining out of `k + l.length` endpoints: the loop returns `none`
exactly when every remaining endpoint fails its whole inner loop. -/
lemma rpcLoopGo_none_iff (behave : Nat → Nat → RpcOutcome) (m : Nat) :
    ∀ (l : List Nat) (c : RpcClient),
    c.currentRpcIndex + l.length = c.rpcUrls.length →
    ((rpcLoopGo behave m l c).1 = none ↔
      ∀ j, c.currentRpcIndex ≤ j → j < c.rpcUrls.length →
        attemptLoop (behave j) m 0 = none) := by
  intro l
  induction l with
  | nil =>
    intro c hlen
    simp only [List.length_nil, Nat.add_zero] at hlen
    simp only [rpcLoopGo]
    constructor
    · intro _ j hj hjN
      omega
    · intro _
      trivial
  | cons x rest ih =>
    intro c hlen
    simp only [List.length_cons] at hlen
    cases hk : attemptLoop (behave c.currentRpcIndex) m 0 with
    | some r =>
      rw [rpcLoopGo_cons_some behave m x rest c r hk]
      constructor
      · intro h
        exact Option.noConfusion h
      · intro hall
        have := hall c.currentRpcIndex le_rfl (by omega)
        rw [hk] at this
        exact absurd this (by simp)
    | none =>
      cases rest with
      | nil =>
        simp only [List.length_nil] at hlen
        rw [rpcLoopGo_cons_none_last behave m x c hk]
        constructor
        · intro _ j hj hjN
          have : j = c.currentRpcIndex := by omega
          subst this
          exact hk
        · intro _
          trivial
      | cons y rest' =>
        simp only [List.length_cons] at hlen
        have hmod : (c.currentRpcIndex + 1) % c.rpcUrls.length
            = c.currentRpcIndex + 1 := by
          apply Nat.mod_eq_of_lt
          omega
        have h1 : (tryNextRpcUrl c).currentRpcIndex = c.currentRpcIndex + 1 := by
          rw [tryNextRpcUrl_currentRpcIndex, hmod]
        have hrec := ih (tryNextRpcUrl c)
          (by
            rw [h1, tryNextRpcUrl_rpcUrls]
            simp only [List.length_cons]
            omega)
        rw [rpcLoopGo_cons_none_step behave m x y rest' c hk, hrec]
        rw [h1, tryNextRpcUrl_rpcUrls]
        constructor
        · intro hall j hj hjN
          rcases Nat.eq_or_lt_of_le hj with rfl | hj'
          · exact hk
          · exact hall j (by omega) hjN
        · intro hall j hj hjN
          exact hall j (by omega) hjN

lemma makeRpcRequest_of_loop_some (behave : Nat → Nat → RpcOutcome)
    (c : RpcClient) (r : Nat) (c' : RpcClient)
    (h : rpcLoopGo behave c.maxRetries (List.range c.rpcUrls.length) c
      = (some r, c')) :
    makeRpcRequest behave c = (.ok r, c') := by
  simp only [makeRpcRequest, h]

lemma makeRpcRequest_of_loop_none (behave : Nat → Nat → RpcOutcome)
    (c : RpcClient) (c' : RpcClient)
    (h : rpcLoopGo behave c.maxRetries (List.range c.rpcUrls.length) c
      = (none, c')) :
    makeRpcRequest behave c
      = (.error ⟨c.rpcUrls.length, c.maxRetries⟩,
         { c with rpcUrl := c.rpcUrls.getD c.currentRpcIndex "" }) := by
  simp only [makeRpcRequest, h]

/-! ## Claim theorems -/

/-- C1: for an endpoint pool of size `N` whose first `M < N` endpoints always
fail with a timeout or connection failure while endpoint `M + 1` is healthy,
`_make_rpc_request` returns that endpoint's successful response; and, for any
behaviour whose outcomes are timeouts, connection failures or successes, it
raises the connectivity error — reporting the `N` endpoints and `max_retries`
per-endpoint attempts tried — if and only if every one of the `N` endpoints
exhausts its whole retry budget without a successful response. -/
theorem rpc_request_failover_and_error_iff_exhausted
    (urls : List String) (m M r : Nat) (behave : Nat → Nat → RpcOutcome)
    (hm : 1 ≤ m) (hM : M < urls.length)
    (hfail : ∀ e, e < M → ∀ a, behave e a = .timeout ∨ behave e a = .connectionError)
    (hok : ∀ a, behave M a = .success r) :
    (makeRpcRequest behave ⟨urls, 0, urls.getD 0 "", m⟩).1 = .ok r ∧
    (∀ behave2 : Nat → Nat → RpcOutcome,
      (∀ e a, e < urls.length → retryableOrSuccess (behave2 e a)) →
      ((makeRpcRequest behave2 ⟨urls, 0, urls.getD 0 "", m⟩).1
          = .error ⟨urls.length, m⟩ ↔
        ∀ e, e < urls.length → ∀ a, a < m → ∀ s, behave2 e a ≠ .success s)) := by
  constructor
  · have h := rpcLoopGo_success behave m (List.range urls.length)
      ⟨urls, 0, urls.getD 0 "", m⟩ M r (by simp) rfl (Nat.zero_le M) hM
      (fun j _ hjM => attemptLoop_eq_none_of_fail (behave j) m (hfail j hjM) 0)
      (attemptLoop_eq_some_of_first_success (behave M) m r hm (hok 0))
    rw [makeRpcRequest_of_loop_some behave ⟨urls, 0, urls.getD 0 "", m⟩ r _ h]
  · intro behave2 hres
    have hiff := rpcLoopGo_none_iff behave2 m (List.range urls.length)
      ⟨urls, 0, urls.getD 0 "", m⟩ (by simp)
    rcases hloopE : rpcLoopGo behave2 m (List.range urls.length)
        ⟨urls, 0, urls.getD 0 "", m⟩ with ⟨o, c'⟩
    cases o with
    | some r2 =>
      constructor
      · intro h
        rw [makeRpcRequest_of_loop_some behave2 ⟨urls, 0, urls.getD 0 "", m⟩
          r2 c' hloopE] at h
        exact Except.noConfusion h
      · intro hall
        have hnone : (rpcLoopGo behave2 m (List.range urls.length)
            ⟨urls, 0, urls.getD 0 "", m⟩).1 = none := by
          rw [hiff]
          intro j hj hjN
          rw [attemptLoop_none_iff (behave2 j) m (fun a => hres j a hjN) 0]
          intro b _ hbm s
          exact hall j hjN b hbm s
        rw [hloopE] at hnone
        exact Option.noConfusion hnone
    | none =>
      constructor
      · intro _
        have hnone : (rpcLoopGo behave2 m (List.range urls.length)
            ⟨urls, 0, urls.getD 0 "", m⟩).1 = none := by rw [hloopE]
        have hall := hiff.mp hnone
        intro e he a ham s hs
        have hn := hall e (Nat.zero_le e) he
        rw [attemptLoop_none_iff (behave2 e) m (fun a2 => hres e a2 he) 0] at hn
        exact hn a (Nat.zero_le a) ham s hs
      · intro _
        rw [makeRpcRequest_of_loop_none behave2 ⟨urls, 0, urls.getD 0 "", m⟩
          c' hloopE]

/-- Witness for C1 at a concrete pool of three endpoints, two always timing
out and the third healthy, with the source's `max_retries = 3`. -/
theorem rpc_request_failover_witness :
    (makeRpcRequest behaveW3
        ⟨["a", "b", "c"], 0, ["a", "b", "c"].getD 0 "", 3⟩).1 = .ok 7 ∧
    (∀ behave2 : Nat → Nat → RpcOutcome,
      (∀ e a, e < (["a", "b", "c"] : List String).length →
        retryableOrSuccess (behave2 e a)) →
      ((makeRpcRequest behave2
          ⟨["a", "b", "c"], 0, ["a", "b", "c"].getD 0 "", 3⟩).1
          = .error ⟨(["a", "b", "c"] : List String).length, 3⟩ ↔
        ∀ e, e < (["a", "b", "c"] : List String).length → ∀ a, a < 3 → ∀ s,
          behave2 e a ≠ .success s)) :=
  rpc_request_failover_and_error_iff_exhausted ["a", "b", "c"] 3 2 7 behaveW3
    (by decide) (by decide)
    (fun e he a => Or.inl (by simp only [behaveW3]; rw [if_pos he]))
    (fun a => by simp only [behaveW3]; rw [if_neg (by decide)])

/-- C6: with a pool of 3 endpoints where endpoints 1 and 2 always time out
and endpoint 3 responds correctly, `_make_rpc_request` returns the correct
result and the sticky current index (with `self.rpc_url`) afterwards
designates endpoint 3 in the returned client state used by the next call. -/
theorem rpc_sticky_index_pins_successful_endpoint
    (u1 u2 u3 : String) (m r : Nat) (behave : Nat → Nat → RpcOutcome)
    (hm : 1 ≤ m)
    (h1 : ∀ a, behave 0 a = .timeout) (h2 : ∀ a, behave 1 a = .timeout)
    (h3 : ∀ a, behave 2 a = .success r) :
    makeRpcRequest behave ⟨[u1, u2, u3], 0, u1, m⟩
      = (.ok r, ⟨[u1, u2, u3], 2, u3, m⟩) := by
  have h := rpcLoopGo_success behave m (List.range 3) ⟨[u1, u2, u3], 0, u1, m⟩ 2 r
    (by simp) rfl (Nat.zero_le 2) (by simp)
    (by
      intro j _ hj
      interval_cases j
      · exact attemptLoop_eq_none_of_fail (behave 0) m (fun a => Or.inl (h1 a)) 0
      · exact attemptLoop_eq_none_of_fail (behave 1) m (fun a => Or.inl (h2 a)) 0)
    (attemptLoop_eq_some_of_first_success (behave 2) m r hm (h3 0))
  rw [makeRpcRequest_of_loop_some behave ⟨[u1, u2, u3], 0, u1, m⟩ r _ h]
  rfl

/-- Witness for C6 at three concrete endpoints with `max_retries = 3`. -/
theorem rpc_sticky_index_witness :
    makeRpcRequest behaveW3 ⟨["a", "b", "c"], 0, "a", 3⟩
      = (.ok 7, ⟨["a", "b", "c"], 2, "c", 3⟩) :=
  rpc_sticky_index_pins_successful_endpoint "a" "b" "c" 3 7 behaveW3 (by decide)
    (fun a => by simp only [behaveW3]; rw [if_pos (by decide)])
    (fun a => by simp only [behaveW3]; rw [if_pos (by decide)])
    (fun a => by simp only [behaveW3]; rw [if_neg (by decide)])

/-- C10: when `_make_rpc_request` fails over every endpoint and raises the
connectivity error, the sticky current index and `self.rpc_url` are restored
to the values they held before the call began (the pointer state is unchanged
on the total-failure path). -/
theorem rpc_total_failure_restores_pointer
    (behave : Nat → Nat → RpcOutcome) (c : RpcClient) (err : ConnectivityError)
    (hurl : c.rpcUrl = c.rpcUrls.getD c.currentRpcIndex "")
    (herr : (makeRpcRequest behave c).1 = .error err) :
    (makeRpcRequest behave c).2 = c := by
  rcases hloopE : rpcLoopGo behave c.maxRetries (List.range c.rpcUrls.length) c
    with ⟨o, c'⟩
  cases o with
  | some r =>
    rw [makeRpcRequest_of_loop_some behave c r c' hloopE] at herr
    exact absurd herr (by simp)
  | none =>
    rw [makeRpcRequest_of_loop_none behave c c' hloopE]
    cases c
    simp_all

/-- Witness for C10 at a concrete single-endpoint pool that always times out
with one retry. -/
theorem rpc_total_failure_restores_pointer_witness :
    (⟨["a"], 0, "a", 1⟩ : RpcClient).rpcUrl
        = (⟨["a"], 0, "a", 1⟩ : RpcClient).rpcUrls.getD
          (⟨["a"], 0, "a", 1⟩ : RpcClient).currentRpcIndex "" ∧
    (makeRpcRequest behaveTimeoutW ⟨["a"], 0, "a", 1⟩).1 = .error ⟨1, 1⟩ ∧
    (makeRpcRequest behaveTimeoutW ⟨["a"], 0, "a", 1⟩).2 = ⟨["a"], 0, "a", 1⟩ :=
  ⟨rfl, rfl,
   rpc_total_failure_restores_pointer behaveTimeoutW ⟨["a"], 0, "a", 1⟩
     ⟨1, 1⟩ rfl rfl⟩

/-! ## Lemmas about the uploader -/

lemma uploadToIpfsGo_all_disabled (backendBehave : Nat → Except Unit (Option String)) :
    ∀ (endpoints : List IpfsEndpoint), (∀ ep ∈ endpoints, ep.token = none) →
    ∀ i n, uploadToIpfsGo backendBehave endpoints i n = (none, n) := by
  intro endpoints
  induction endpoints with
  | nil => intro _ i n; rfl
  | cons ep rest ih =>
    intro h i n
    have hep : ep.token = none := h ep (List.mem_cons_self ep rest)
    simp only [uploadToIpfsGo, hep]
    exact ih (fun x hx => h x (List.mem_cons_of_mem ep hx)) (i + 1) n

lemma prefixed_cid_not_isEmpty (s : String) :
    ("bafybeif" ++ s).isEmpty = false := by
  cases he : ("bafybeif" ++ s).isEmpty with
  | false => rfl
  | true =>
    exfalso
    have h0 : ("bafybeif" ++ s) = "" := (String.isEmpty_iff _).mp he
    have hl := congrArg String.length h0
    rw [String.length_append] at hl
    have h8 : ("bafybeif" : String).length = 8 := rfl
    have hz : ("" : String).length = 0 := rfl
    omega

/-- C3: for every non-empty byte input, with all external backends disabled
(no credential present), `upload_file` makes zero backend calls, computes the
deterministic fallback cid, persists the bytes in the local cache under that
cid, and `download_file` of that cid serves back exactly the original bytes
from the cache. -/
theorem upload_download_roundtrip
    (sha256hex : Bytes → String)
    (backendBehave : Nat → Except Unit (Option String))
    (gatewayBehave : Nat → Option Bytes) (endpoints : List IpfsEndpoint)
    (gateways : List String) (cache : List (String × Bytes))
    (fileBytes : Bytes) (filename : String)
    (hne : fileBytes ≠ [])
    (hdis : ∀ ep ∈ endpoints, ep.token = none) :
    uploadFile sha256hex backendBehave endpoints cache fileBytes filename
      = (.ok ("bafybeif" ++ (sha256hex fileBytes).take 52),
         ("bafybeif" ++ (sha256hex fileBytes).take 52 ++ ".dat", fileBytes) :: cache,
         0) ∧
    downloadFile gatewayBehave gateways
        (("bafybeif" ++ (sha256hex fileBytes).take 52 ++ ".dat", fileBytes) :: cache)
        ("bafybeif" ++ (sha256hex fileBytes).take 52)
      = .ok fileBytes := by
  have hskip : uploadToIpfsGo backendBehave endpoints 0 0 = (none, 0) :=
    uploadToIpfsGo_all_disabled backendBehave endpoints hdis 0 0
  have hlen : ¬ fileBytes.length = 0 := by
    simpa using hne
  constructor
  · simp only [uploadFile, hlen, if_false, uploadToIpfs, hskip,
      createDeterministicCid, prefixed_cid_not_isEmpty, Bool.false_eq_true,
      if_neg]
  · simp [downloadFile, List.lookup]

/-- Witness for C3 at concrete two-byte content with both backends
tokenless. -/
theorem upload_download_roundtrip_witness :
    ([1, 2] : Bytes) ≠ [] ∧
    (uploadFile sha256hexW backendBehaveW
        [⟨"web3.storage", "https://api.web3.storage", none⟩,
         ⟨"nft.storage", "https://api.nft.storage", none⟩] [] [1, 2] "f.png"
      = (.ok ("bafybeif" ++ (sha256hexW [1, 2]).take 52),
         ("bafybeif" ++ (sha256hexW [1, 2]).take 52 ++ ".dat", [1, 2]) :: [],
         0) ∧
    downloadFile gatewayBehaveW []
        (("bafybeif" ++ (sha256hexW [1, 2]).take 52 ++ ".dat", [1, 2]) :: [])
        ("bafybeif" ++ (sha256hexW [1, 2]).take 52)
      = .ok [1, 2]) :=
  ⟨by decide,
   upload_download_roundtrip sha256hexW backendBehaveW gatewayBehaveW
     [⟨"web3.storage", "https://api.web3.storage", none⟩,
      ⟨"nft.storage", "https://api.nft.storage", none⟩] [] [] [1, 2] "f.png"
     (by decide) (by intro ep hep; fin_cases hep <;> rfl)⟩

/-- C4: for zero-length input, `upload_file` raises the validation error
immediately: the backend iteration is never entered, zero backend upload
calls are made, and the cache is untouched. -/
theorem empty_upload_rejected_without_backend_calls
    (sha256hex : Bytes → String)
    (backendBehave : Nat → Except Unit (Option String))
    (endpoints : List IpfsEndpoint) (cache : List (String × Bytes))
    (filename : String) :
    uploadFile sha256hex backendBehave endpoints cache [] filename
      = (.error (.validationError "File is empty (0 bytes)"), cache, 0) := rfl

/-- C5: the fallback content id computed by `_upload_to_ipfs` when it takes
the fallback path is a pure function of the input bytes alone — it does not
depend on the endpoint list, the backend behaviour, the cache state or the
filename. -/
theorem fallback_cid_pure_function_of_bytes
    (sha256hex : Bytes → String)
    (bb1 bb2 : Nat → Except Unit (Option String))
    (eps1 eps2 : List IpfsEndpoint)
    (cache1 cache2 : List (String × Bytes)) (fileBytes : Bytes)
    (fn1 fn2 : String)
    (h1 : (uploadToIpfsGo bb1 eps1 0 0).1 = none)
    (h2 : (uploadToIpfsGo bb2 eps2 0 0).1 = none) :
    (uploadToIpfs sha256hex bb1 eps1 cache1 fileBytes fn1).1
      = (uploadToIpfs sha256hex bb2 eps2 cache2 fileBytes fn2).1 := by
  rcases hg1 : uploadToIpfsGo bb1 eps1 0 0 with ⟨o1, n1⟩
  rcases hg2 : uploadToIpfsGo bb2 eps2 0 0 with ⟨o2, n2⟩
  rw [hg1] at h1
  rw [hg2] at h2
  simp only at h1 h2
  subst h1
  subst h2
  simp [uploadToIpfs, hg1, hg2, createDeterministicCid]

/-- Witness for C5: two fallback uploads of the same bytes from different
cache states and filenames produce the same cid. -/
theorem fallback_cid_pure_witness :
    (uploadToIpfsGo backendBehaveW [] 0 0).1 = none ∧
    (uploadToIpfs sha256hexW backendBehaveW [] [] [1, 2] "a.png").1
      = (uploadToIpfs sha256hexW backendBehaveW [] [("x", [9])] [1, 2] "b.json").1 :=
  ⟨rfl,
   fallback_cid_pure_function_of_bytes sha256hexW backendBehaveW backendBehaveW
     [] [] [] [("x", [9])] [1, 2] "a.png" "b.json" rfl rfl⟩

/-! ## Transaction pipeline theorems -/

/-- C2: if gas estimation throws, `build_and_send_transaction` aborts with an
error before any broadcast — the chain state (broadcast list and transaction
count) is unchanged — and a later call with a call descriptor whose
estimation succeeds broadcasts a transaction carrying the same account nonce
the failed call had fetched. -/
theorem gas_estimation_failure_aborts_without_broadcast_or_nonce
    (chainId : Nat) (account : String) (hashOf : SignedTx → String)
    (mine : SignedTx → Receipt) (st : ChainState) (e : String) (g : Nat)
    (fc1 fc2 : FunctionCall)
    (hfail : fc1.estimateGas = .error e) (hok : fc2.estimateGas = .ok g) :
    (buildAndSendTransaction chainId account hashOf mine st fc1).1
        = .error (.httpException 400 ("Error en transacción: " ++ e)) ∧
    (buildAndSendTransaction chainId account hashOf mine st fc1).2 = st ∧
    (buildAndSendTransaction chainId account hashOf mine
        (buildAndSendTransaction chainId account hashOf mine st fc1).2
        fc2).2.broadcasts
      = st.broadcasts ++ [⟨st.txCount, g * 12 / 10, st.gasPrice, chainId, account⟩] := by
  simp [buildAndSendTransaction, hfail, hok]

def fcFailW : FunctionCall := ⟨.error "execution reverted"⟩

def fcOkW : FunctionCall := ⟨.ok 100000⟩

/-- Witness for C2 at a concrete chain state and call descriptors. -/
theorem gas_estimation_failure_witness :
    fcFailW.estimateGas = .error "execution reverted" ∧
    fcOkW.estimateGas = .ok 100000 ∧
    ((buildAndSendTransaction 421614 "0xacc" hashOfW mineW ⟨5, 10, []⟩ fcFailW).1
        = .error (.httpException 400
            ("Error en transacción: " ++ "execution reverted")) ∧
     (buildAndSendTransaction 421614 "0xacc" hashOfW mineW ⟨5, 10, []⟩ fcFailW).2
        = ⟨5, 10, []⟩ ∧
     (buildAndSendTransaction 421614 "0xacc" hashOfW mineW
        (buildAndSendTransaction 421614 "0xacc" hashOfW mineW
          ⟨5, 10, []⟩ fcFailW).2 fcOkW).2.broadcasts
       = [] ++ [⟨5, 100000 * 12 / 10, 10, 421614, "0xacc"⟩]) :=
  ⟨rfl, rfl,
   gas_estimation_failure_aborts_without_broadcast_or_nonce 421614 "0xacc"
     hashOfW mineW ⟨5, 10, []⟩ "execution reverted" 100000 fcFailW fcOkW rfl rfl⟩

/-! ## Audit log theorems -/

/-- C7 counterexample: the claim says that when gas estimation throws,
exactly one `failed` audit entry is recorded before the error is re-raised;
at this concrete input `crear_servicio` raises the wrapped HTTP 400 error but
records zero entries — `log_transaction` is not called on the error path. -/
theorem audit_failed_entry_counterexample :
    (crearServicio 421614 "0xacc" hashOfW mineW tokenIdOfReceiptW
        ⟨5, 10, []⟩ ⟨[]⟩ "0xdest" fcFailW).1
      = .error (.httpException 400
          "Error al crear servicio: 400: Error en transacción: execution reverted") ∧
    ((crearServicio 421614 "0xacc" hashOfW mineW tokenIdOfReceiptW
        ⟨5, 10, []⟩ ⟨[]⟩ "0xdest" fcFailW).2.2.transactions.filter
        (fun en => en.status == "failed")).length = 0 := by
  constructor
  · rfl
  · rfl

/-- C7 (amended): when gas estimation throws, `crear_servicio` propagates the
error to the caller (re-wrapped as an HTTP 400 error) but writes no audit
entry at all: the transaction log is unchanged, so zero `failed` entries are
recorded rather than one. -/
theorem error_propagates_without_audit_entry
    (chainId : Nat) (account : String) (hashOf : SignedTx → String)
    (mine : SignedTx → Receipt) (tokenIdOfReceipt : TxResult → Option Nat)
    (st : ChainState) (log : TransactionLog) (dest : String)
    (e : String) (fc : FunctionCall) (hfail : fc.estimateGas = .error e) :
    (crearServicio chainId account hashOf mine tokenIdOfReceipt st log dest fc).1
      = .error (.httpException 400
          ("Error al crear servicio: " ++ strOfTxError
            (.httpException 400 ("Error en transacción: " ++ e)))) ∧
    (crearServicio chainId account hashOf mine tokenIdOfReceipt st log dest fc).2.2
      = log := by
  simp [crearServicio, buildAndSendTransaction, hfail]

/-- Witness for the amended C7 at a concrete reverting call. -/
theorem error_propagates_without_audit_entry_witness :
    fcFailW.estimateGas = .error "execution reverted" ∧
    ((crearServicio 421614 "0xacc" hashOfW mineW tokenIdOfReceiptW
        ⟨5, 10, []⟩ ⟨[]⟩ "0xdest" fcFailW).1
      = .error (.httpException 400
          ("Error al crear servicio: " ++ strOfTxError
            (.httpException 400 ("Error en transacción: " ++ "execution reverted")))) ∧
    (crearServicio 421614 "0xacc" hashOfW mineW tokenIdOfReceiptW
        ⟨5, 10, []⟩ ⟨[]⟩ "0xdest" fcFailW).2.2 = ⟨[]⟩) :=
  ⟨rfl,
   error_propagates_without_audit_entry 421614 "0xacc" hashOfW mineW
     tokenIdOfReceiptW ⟨5, 10, []⟩ ⟨[]⟩ "0xdest" "execution reverted" fcFailW rfl⟩

lemma logUploadN_char (n : Nat) :
    (logUploadN n).uploads.length = n ∧
    (logUploadN n).uploads.map (fun u => u.seq) = List.range' 1 n := by
  induction n with
  | zero => exact ⟨rfl, rfl⟩
  | succ k ih =>
    obtain ⟨hlen, hmap⟩ := ih
    constructor
    · simp [logUploadN, logUpload, saveLogData, hlen]
    · simp only [logUploadN, logUpload, saveLogData, List.map_append,
        List.map_cons, List.map_nil, hmap, hlen]
      rw [List.range'_concat]
      simp [Nat.add_comm]

lemma txAppendN_transactions (n : Nat) :
    (txAppendN n).transactions = ((List.range n).reverse.map txEntryN).take 1000 := by
  induction n with
  | zero => rfl
  | succ k ih =>
    have hA : ((List.range (k + 1)).reverse.map txEntryN)
        = txEntryN k :: (List.range k).reverse.map txEntryN := by
      rw [List.range_succ, List.reverse_append]
      simp
    have hlenA : ((List.range k).reverse.map txEntryN).length = k := by simp
    simp only [txAppendN, logTransaction, ih, hA]
    by_cases hk : k < 1000
    · have htake : ((List.range k).reverse.map txEntryN).take 1000
          = (List.range k).reverse.map txEntryN :=
        List.take_of_length_le (by rw [hlenA]; omega)
      rw [htake]
      rw [if_neg (by simp only [List.length_cons, hlenA]; omega)]
      rw [List.take_of_length_le (by simp only [List.length_cons, hlenA]; omega)]
    · rw [if_pos (by
        simp only [List.length_cons, List.length_take, hlenA]
        omega)]
      rw [show (1000 : Nat) = 999 + 1 from by norm_num]
      rw [List.take_succ_cons, List.take_succ_cons, List.take_take]
      congr 1

/-- Elements surviving `take m` of the reversed range `[n-1, …, 0]` are at
least `n - m`. -/
lemma mem_take_reverse_range {n m k : Nat}
    (h : k ∈ ((List.range n).reverse.take m)) : n ≤ k + m := by
  induction n generalizing m with
  | zero => simp at h
  | succ j ih =>
    rw [List.range_succ, List.reverse_append] at h
    simp only [List.reverse_cons, List.reverse_nil, List.nil_append,
      List.singleton_append] at h
    cases m with
    | zero => simp at h
    | succ m2 =>
      rw [List.take_succ_cons] at h
      rcases List.mem_cons.mp h with h | h
      · omega
      · have := ih h
        omega

/-- C8 (amended): appending `n` entries sequentially to a fresh upload log
and reloading yields exactly `n` entries whose sequence-id components are
`1, 2, …, n` in file order — strictly increasing with no duplicates, gaps or
reordering.  The transaction log instead prepends each entry (newest first,
its entries carry no sequence ids) and its append trims retention to the
newest 1000 entries, so after `n` sequential appends the reloaded file holds
the last `min n 1000` entries in reverse append order, which is exactly `n`
entries only when `n ≤ 1000`. -/
theorem audit_append_reload_sequences (n : Nat) :
    (logUploadN n).uploads.length = n ∧
    (logUploadN n).uploads.map (fun u => u.seq) = List.range' 1 n ∧
    (txAppendN n).transactions
      = ((List.range n).reverse.map txEntryN).take 1000 ∧
    (txAppendN n).transactions.length = min n 1000 := by
  obtain ⟨h1, h2⟩ := logUploadN_char n
  refine ⟨h1, h2, txAppendN_transactions n, ?_⟩
  rw [txAppendN_transactions n]
  simp [Nat.min_comm]

/-- C8 counterexample: appending `N = 1001` entries sequentially to the
transaction log and reloading yields 1000 entries, not `N`. -/
theorem audit_append_reload_counterexample :
    (txAppendN 1001).transactions.length = 1000 ∧ (1000 : Nat) ≠ 1001 := by
  constructor
  · rw [txAppendN_transactions]
    simp
  · decide

/-- C9 (amended): `log_upload` only appends — every append adds exactly one
entry at the end and removes none; `log_transaction` prepends one entry and
removes none as long as the log holds fewer than 1000 entries, but once it
holds 1000 the append itself trims the list back to the newest 1000 —
retention is enforced inside the append, in addition to the explicit cleanup
operations. -/
theorem audit_log_append_only
    (log : UploadLog) (ts : Nat) (uty : String) (fs : Nat) (stat : String)
    (txlog : TransactionLog) (entry : TxLogEntry)
    (hlen : txlog.transactions.length < 1000) :
    (∃ e2, (logUpload log ts uty fs stat).uploads = log.uploads ++ [e2]) ∧
    (logTransaction txlog entry).transactions = entry :: txlog.transactions := by
  constructor
  · exact ⟨_, rfl⟩
  · simp only [logTransaction]
    rw [if_neg (by simp only [List.length_cons]; omega)]

/-- Witness for the amended C9 at a one-entry transaction log. -/
theorem audit_log_append_only_witness :
    (⟨[txEntryN 0]⟩ : TransactionLog).transactions.length < 1000 ∧
    ((∃ e2, (logUpload initialUploadLog 5 "image" 2 "success").uploads
        = initialUploadLog.uploads ++ [e2]) ∧
     (logTransaction ⟨[txEntryN 0]⟩ (txEntryN 1)).transactions
        = txEntryN 1 :: (⟨[txEntryN 0]⟩ : TransactionLog).transactions) :=
  ⟨by simp,
   audit_log_append_only initialUploadLog 5 "image" 2 "success"
     ⟨[txEntryN 0]⟩ (txEntryN 1) (by simp)⟩

/-- C9 counterexample: with 1000 entries in the transaction log, the next
append (`log_transaction`, not a trim operation) drops the oldest existing
entry: the first entry appended is present before the 1001st append and
absent after it. -/
theorem audit_log_append_drops_counterexample :
    txEntryN 0 ∈ (txAppendN 1000).transactions ∧
    txAppendN 1001 = logTransaction (txAppendN 1000) (txEntryN 1000) ∧
    txEntryN 0 ∉ (txAppendN 1001).transactions := by
  refine ⟨?_, rfl, ?_⟩
  · rw [txAppendN_transactions]
    rw [List.take_of_length_le (by simp)]
    exact List.mem_map_of_mem txEntryN (by simp)
  · rw [txAppendN_transactions]
    intro hmem
    rw [← List.map_take] at hmem
    obtain ⟨k, hk, hke⟩ := List.mem_map.mp hmem
    have h1 : 1001 ≤ k + 1000 := mem_take_reverse_range hk
    have h2 : k = 0 := by
      have hb := congrArg (fun en => en.blockNumber) hke
      simp only [txEntryN, Option.some.injEq] at hb
      exact hb
    omega

end Companya
